import Mathlib

/-!
Verification of the WebCite MCP server's streaming ingestion and
result-reconstruction subsystem (src/api-client.ts `verifyClaimStream` and
src/index.ts `collectStreamEvents`).

JavaScript strings are modelled as `List Char` (`JStr`); raw network bytes as
`List Nat`.  The `TextDecoder` used by the source (WHATWG UTF-8 decoder with
`stream: true` and default `ignoreBOM: false`) is modelled byte by byte,
including replacement-character emission on malformed input and stripping of a
leading byte-order mark.  The SSE line loop, the end-of-stream flusher, the
opportunistic JSON decoding of payloads and the event aggregator are each
translated directly from the source.
-/

namespace WebCite

/-- JavaScript string, modelled as a list of unicode scalar values. -/
abbrev JStr := List Char

/-- Characters of a Lean string literal, used to write JS string literals. -/
def S (s : String) : JStr := s.data

/-- JS `line.startsWith(pre)`. -/
def jsStartsWith (line pre : JStr) : Bool := pre.isPrefixOf line

/-- Whitespace set of JS `String.prototype.trim` (WhiteSpace ∪ LineTerminator). -/
def jsIsWhitespace (c : Char) : Bool :=
  c.val = 0x9 ∨ c.val = 0xB ∨ c.val = 0xC ∨ c.val = 0x20 ∨ c.val = 0xA0 ∨
  c.val = 0xFEFF ∨ c.val = 0xA ∨ c.val = 0xD ∨ c.val = 0x2028 ∨ c.val = 0x2029 ∨
  c.val = 0x1680 ∨ (0x2000 ≤ c.val ∧ c.val ≤ 0x200A) ∨ c.val = 0x202F ∨
  c.val = 0x205F ∨ c.val = 0x3000

/-- JS `s.trim()`: strip leading and trailing whitespace. -/
def jsTrim (s : JStr) : JStr :=
  ((s.dropWhile jsIsWhitespace).reverse.dropWhile jsIsWhitespace).reverse

/-- JS `s.split('\n')`.  Always returns a non-empty list; the elements contain
no newline and concatenating them with `'\n'` separators restores `s`. -/
def splitOnNl : JStr → List JStr
  | [] => [[]]
  | c :: rest =>
    match splitOnNl rest with
    | [] => [[]]
    | l :: ls => if c = '\n' then [] :: l :: ls else (c :: l) :: ls

/-- JS `String(n)` for a natural number. -/
def natToJStr (n : Nat) : JStr := (Nat.repr n).data

/-! ### WHATWG UTF-8 decoder (`TextDecoder` with `stream: true`)

State and transition follow the WHATWG Encoding standard's UTF-8 decoder:
`codePoint`, `bytesSeen`, `bytesNeeded` accumulate a multi-byte sequence and
`lowerB`/`upperB` restrict the next continuation byte.  Malformed input emits
U+FFFD; a byte rejected as a continuation byte is reprocessed in the fresh
state.  The source never calls the decoder's final flush, so bytes of an
incomplete sequence pending at end of stream are never emitted. -/

structure Utf8State where
  codePoint : Nat
  bytesSeen : Nat
  bytesNeeded : Nat
  lowerB : Nat
  upperB : Nat
deriving Repr, DecidableEq

/-- Clean decoder state, ready for the start of a sequence. -/
def utf8Clean : Utf8State := ⟨0, 0, 0, 0x80, 0xBF⟩

/-- The U+FFFD replacement character. -/
def replChar : Char := Char.ofNat 0xFFFD

/-- Decoder transition for a byte arriving in the clean state.  Bit masking
(`b & 0x1F` etc.) is written with `%` since the relevant high bits are fixed
by the guarding range checks. -/
def utf8Start (b : Nat) : List Char × Utf8State :=
  if b ≤ 0x7F then ([Char.ofNat b], utf8Clean)
  else if 0xC2 ≤ b ∧ b ≤ 0xDF then
    ([], { utf8Clean with bytesNeeded := 1, codePoint := b % 32 })
  else if 0xE0 ≤ b ∧ b ≤ 0xEF then
    ([],
     { utf8Clean with
        bytesNeeded := 2
        codePoint := b % 16
        lowerB := if b = 0xE0 then 0xA0 else 0x80
        upperB := if b = 0xED then 0x9F else 0xBF })
  else if 0xF0 ≤ b ∧ b ≤ 0xF4 then
    ([],
     { utf8Clean with
        bytesNeeded := 3
        codePoint := b % 8
        lowerB := if b = 0xF0 then 0x90 else 0x80
        upperB := if b = 0xF4 then 0x8F else 0xBF })
  else ([replChar], utf8Clean)

/-- Decoder transition for one byte in an arbitrary state. -/
def utf8Step (st : Utf8State) (b : Nat) : List Char × Utf8State :=
  if st.bytesNeeded = 0 then utf8Start b
  else if b < st.lowerB ∨ st.upperB < b then
    let s := utf8Start b
    (replChar :: s.1, s.2)
  else
    let cp := st.codePoint * 64 + b % 64
    if st.bytesSeen + 1 = st.bytesNeeded then ([Char.ofNat cp], utf8Clean)
    else
      ([],
       { st with
          codePoint := cp
          bytesSeen := st.bytesSeen + 1
          lowerB := 0x80
          upperB := 0xBF })

/-- Full `TextDecoder` state: the UTF-8 core plus the flag recording whether
the leading byte-order mark has already been looked for (`ignoreBOM: false`). -/
structure TextDecoderState where
  core : Utf8State
  bomDone : Bool
deriving Repr, DecidableEq

/-- Initial `TextDecoder` state (`new TextDecoder()`). -/
def decoderInit : TextDecoderState := ⟨utf8Clean, false⟩

/-- Drop a leading U+FEFF the first time any code point is produced. -/
def bomFilter : Bool → List Char → List Char × Bool
  | done, [] => ([], done)
  | true, cs => (cs, true)
  | false, c :: cs => ((if c = Char.ofNat 0xFEFF then cs else c :: cs), true)

/-- Decode a single byte through the full `TextDecoder` state. -/
def decodeByte (st : TextDecoderState) (b : Nat) : List Char × TextDecoderState :=
  let s := utf8Step st.core b
  let f := bomFilter st.bomDone s.1
  (f.1, ⟨s.2, f.2⟩)

/-- JS `decoder.decode(value, \x7b stream: true \x7d)`: decode one chunk of
bytes, carrying decoder state to the next chunk. -/
def utf8DecodeChunk (st : TextDecoderState) (bytes : List Nat) : JStr × TextDecoderState :=
  bytes.foldl (fun acc b =>
    let s := decodeByte acc.2 b
    (acc.1 ++ s.1, s.2)) ([], st)

/-- UTF-8 bytes of an ASCII string, for building concrete test inputs. -/
def asciiBytes (s : String) : List Nat := s.data.map Char.toNat

/-! ### SSE frame parser (`verifyClaimStream`, src/api-client.ts lines 200-258)

A frame is the `(eventKind, rawPayload)` pair the generator yields (before
JSON decoding of the payload).  The in-chunk line loop carries
`(currentEvent, currentData)`; faithfully to the source, that pair is
declared inside the read loop, so it is reinitialised to `("message", "")`
for every chunk and discarded when the chunk's complete lines run out. -/

/-- One SSE frame: event kind and raw `data:` payload. -/
abbrev Frame := JStr × JStr

/-- The body of `for (const line of lines)` (api-client.ts lines 218-233):
one line updates `(currentEvent, currentData)` and possibly yields a frame. -/
def stepLine (st : JStr × JStr) (line : JStr) : (JStr × JStr) × Option Frame :=
  if jsStartsWith line (S "event: ") then ((jsTrim (line.drop 7), st.2), none)
  else if jsStartsWith line (S "data: ") then ((st.1, line.drop 6), none)
  else if line = [] ∧ st.2 ≠ [] then ((S "message", []), some (st.1, st.2))
  else (st, none)

/-- Run the line loop over a list of complete lines, collecting the yielded
frames in order together with the final `(currentEvent, currentData)`. -/
def runLines : (JStr × JStr) → List JStr → (JStr × JStr) × List Frame
  | st, [] => (st, [])
  | st, line :: rest =>
    let s := stepLine st line
    let r := runLines s.1 rest
    (r.1, s.2.toList ++ r.2)

/-- Carry-over state between reads: the `TextDecoder` state and the `buffer`
holding the last (possibly incomplete) line. -/
structure ParseState where
  dec : TextDecoderState
  buffer : JStr
deriving Repr, DecidableEq

/-- State before the first read: fresh decoder, `buffer = ''`. -/
def initParseState : ParseState := ⟨decoderInit, []⟩

/-- One iteration of the read loop (api-client.ts lines 205-234): decode the
chunk, split `buffer` on newlines keeping the last element as the new
`buffer`, and run the line loop — with `(currentEvent, currentData)` freshly
initialised for this chunk — over the complete lines. -/
def processChunk (st : ParseState) (chunk : List Nat) : ParseState × List Frame :=
  let d := utf8DecodeChunk st.dec chunk
  let parts := splitOnNl (st.buffer ++ d.1)
  let buf := (parts.getLast?).getD []
  let r := runLines (S "message", []) parts.dropLast
  (⟨d.2, buf⟩, r.2)

/-- Run the read loop over all chunks of the byte stream. -/
def runChunks : ParseState → List (List Nat) → ParseState × List Frame
  | st, [] => (st, [])
  | st, c :: cs =>
    let p := processChunk st c
    let r := runChunks p.1 cs
    (r.1, p.2 ++ r.2)

/-- End-of-stream flusher (api-client.ts lines 236-255): if the remaining
`buffer` is non-blank, re-scan its lines for `event: ` and `data: ` fields
(no blank-line handling) and emit one final frame if a payload was captured. -/
def flushBuffer (buffer : JStr) : List Frame :=
  if jsTrim buffer ≠ [] then
    let lines := splitOnNl buffer
    let st := lines.foldl (fun (p : JStr × JStr) line =>
      if jsStartsWith line (S "event: ") then (jsTrim (line.drop 7), p.2)
      else if jsStartsWith line (S "data: ") then (p.1, line.drop 6)
      else p) (S "message", [])
    if st.2 ≠ [] then [(st.1, st.2)] else []
  else []

/-- The whole stream-to-frames pipeline of `verifyClaimStream`: the read loop
over the byte chunks followed by the end-of-stream flusher. -/
def verifyClaimStream (chunks : List (List Nat)) : List Frame :=
  let r := runChunks initParseState chunks
  r.2 ++ flushBuffer r.1.buffer

/-! ### JSON values and `JSON.parse`

JSON numbers are modelled as rationals (decimal literals are exact in `ℚ`).
`JSON.parse` is modelled by a fuel-indexed recursive-descent parse of the
ECMA-404 grammar; `jsonParse` returns `none` exactly when `JSON.parse`
throws, which is what the `catch` in the source absorbs. -/

inductive Json where
  | null : Json
  | bool (b : Bool) : Json
  | num (q : ℚ) : Json
  | str (s : JStr) : Json
  | arr (items : List Json) : Json
  | obj (fields : List (JStr × Json)) : Json

/-- JSON insignificant whitespace. -/
def jsonWsChar (c : Char) : Bool := c = ' ' ∨ c = '\t' ∨ c = '\n' ∨ c = '\r'

/-- Skip JSON whitespace. -/
def jsonSkipWs (s : JStr) : JStr := s.dropWhile jsonWsChar

/-- Value of a hexadecimal digit. -/
def hexVal (c : Char) : Option Nat :=
  if '0' ≤ c ∧ c ≤ '9' then some (c.toNat - 48)
  else if 'a' ≤ c ∧ c ≤ 'f' then some (c.toNat - 87)
  else if 'A' ≤ c ∧ c ≤ 'F' then some (c.toNat - 55)
  else none

/-- Single-character JSON string escapes. -/
def escChar (c : Char) : Option Char :=
  if c = '"' then some '"'
  else if c = '\\' then some '\\'
  else if c = '/' then some '/'
  else if c = 'b' then some (Char.ofNat 8)
  else if c = 'f' then some (Char.ofNat 12)
  else if c = 'n' then some '\n'
  else if c = 'r' then some '\r'
  else if c = 't' then some '\t'
  else none

/-- Numeric value of four hex digits, if all four are hex digits. -/
def hex4 (h1 h2 h3 h4 : Char) : Option Nat :=
  match hexVal h1, hexVal h2, hexVal h3, hexVal h4 with
  | some a, some b, some c, some d => some (((a * 16 + b) * 16 + c) * 16 + d)
  | _, _, _, _ => none

/-- Parse the remainder of a JSON string after the opening quote.  Control
characters are rejected; `\uXXXX` escapes are decoded, pairing surrogates. -/
def pStringRest : JStr → Option (JStr × JStr)
  | [] => none
  | '"' :: rest => some ([], rest)
  | '\\' :: 'u' :: h1 :: h2 :: h3 :: h4 :: '\\' :: 'u' :: g1 :: g2 :: g3 :: g4 :: rest =>
    match hex4 h1 h2 h3 h4, hex4 g1 g2 g3 g4 with
    | some hi, some lo =>
      if 0xD800 ≤ hi ∧ hi ≤ 0xDBFF ∧ 0xDC00 ≤ lo ∧ lo ≤ 0xDFFF then
        (pStringRest rest).map (fun p =>
          (Char.ofNat (0x10000 + (hi - 0xD800) * 0x400 + (lo - 0xDC00)) :: p.1, p.2))
      else
        (pStringRest ('\\' :: 'u' :: g1 :: g2 :: g3 :: g4 :: rest)).map (fun p =>
          (Char.ofNat hi :: p.1, p.2))
    | _, _ => none
  | '\\' :: 'u' :: h1 :: h2 :: h3 :: h4 :: rest =>
    match hex4 h1 h2 h3 h4 with
    | some n => (pStringRest rest).map (fun p => (Char.ofNat n :: p.1, p.2))
    | none => none
  | '\\' :: c :: rest =>
    match escChar c with
    | some e => (pStringRest rest).map (fun p => (e :: p.1, p.2))
    | none => none
  | '\\' :: [] => none
  | c :: rest =>
    if c.toNat < 0x20 then none
    else (pStringRest rest).map (fun p => (c :: p.1, p.2))

/-- Value of a digit string. -/
def digitsVal (ds : List Char) : Nat := ds.foldl (fun a c => a * 10 + (c.toNat - 48)) 0

/-- Parse a JSON number literal at the head of the input. -/
def pNumber (s : JStr) : Option (Json × JStr) :=
  let sg := match s with
    | '-' :: r => ((true : Bool), r)
    | _ => (false, s)
  let ds := sg.2.takeWhile Char.isDigit
  let r2 := sg.2.dropWhile Char.isDigit
  if ds = [] then none
  else if 1 < ds.length ∧ ds.head? = some '0' then none
  else
    let fr : Option (List Char × JStr) := match r2 with
      | '.' :: rr =>
        let fs := rr.takeWhile Char.isDigit
        if fs = [] then none else some (fs, rr.dropWhile Char.isDigit)
      | _ => some ([], r2)
    match fr with
    | none => none
    | some (fds, r3) =>
      let ex : Option (Int × JStr) := match r3 with
        | 'e' :: rr =>
          let sp : Int × JStr := match rr with
            | '+' :: r4 => (1, r4)
            | '-' :: r4 => (-1, r4)
            | _ => (1, rr)
          let es := sp.2.takeWhile Char.isDigit
          if es = [] then none
          else some (sp.1 * (digitsVal es : Int), sp.2.dropWhile Char.isDigit)
        | 'E' :: rr =>
          let sp : Int × JStr := match rr with
            | '+' :: r4 => (1, r4)
            | '-' :: r4 => (-1, r4)
            | _ => (1, rr)
          let es := sp.2.takeWhile Char.isDigit
          if es = [] then none
          else some (sp.1 * (digitsVal es : Int), sp.2.dropWhile Char.isDigit)
        | _ => some (0, r3)
      match ex with
      | none => none
      | some (e, r4) =>
        let mant : Int :=
          (if sg.1 then -1 else 1) * ((digitsVal ds * 10 ^ fds.length + digitsVal fds : Nat) : Int)
        some (Json.num ((mant : ℚ) * (10 : ℚ) ^ (e - (fds.length : Int))), r4)

mutual

/-- Parse one JSON value (fuel-indexed recursive descent). -/
def pVal : Nat → JStr → Option (Json × JStr)
  | 0, _ => none
  | fuel + 1, s =>
    match jsonSkipWs s with
    | '\x7b' :: r =>
      match jsonSkipWs r with
      | '\x7d' :: rest => some (Json.obj [], rest)
      | r1 => (pMembers fuel r1).map (fun p => (Json.obj p.1, p.2))
    | '[' :: r =>
      match jsonSkipWs r with
      | ']' :: rest => some (Json.arr [], rest)
      | r1 => (pItems fuel r1).map (fun p => (Json.arr p.1, p.2))
    | '"' :: r => (pStringRest r).map (fun p => (Json.str p.1, p.2))
    | 't' :: 'r' :: 'u' :: 'e' :: r => some (Json.bool true, r)
    | 'f' :: 'a' :: 'l' :: 's' :: 'e' :: r => some (Json.bool false, r)
    | 'n' :: 'u' :: 'l' :: 'l' :: r => some (Json.null, r)
    | r1 => pNumber r1

/-- Parse the members of a JSON object (at least one member expected). -/
def pMembers : Nat → JStr → Option (List (JStr × Json) × JStr)
  | 0, _ => none
  | fuel + 1, s =>
    match jsonSkipWs s with
    | '"' :: r =>
      match pStringRest r with
      | none => none
      | some (key, r2) =>
        match jsonSkipWs r2 with
        | ':' :: r3 =>
          match pVal fuel r3 with
          | none => none
          | some (v, r4) =>
            match jsonSkipWs r4 with
            | ',' :: r5 =>
              match pMembers fuel r5 with
              | none => none
              | some (fs, r6) => some ((key, v) :: fs, r6)
            | '\x7d' :: r5 => some ([(key, v)], r5)
            | _ => none
        | _ => none
    | _ => none

/-- Parse the items of a JSON array (at least one item expected). -/
def pItems : Nat → JStr → Option (List Json × JStr)
  | 0, _ => none
  | fuel + 1, s =>
    match pVal fuel s with
    | none => none
    | some (v, r) =>
      match jsonSkipWs r with
      | ',' :: r2 =>
        match pItems fuel r2 with
        | none => none
        | some (vs, r3) => some (v :: vs, r3)
      | ']' :: r2 => some ([v], r2)
      | _ => none

end

/-- JS `JSON.parse(s)`: `some` a value when the whole text parses, `none`
when `JSON.parse` would throw. -/
def jsonParse (s : JStr) : Option Json :=
  match pVal (s.length + 1) s with
  | some (v, rest) => if jsonSkipWs rest = [] then some v else none
  | none => none

/-! ### Yielded events and the streaming call boundary -/

/-- One yielded `SSEEvent`: `\x7b event, data \x7d`.  The `data` field is the
JSON-parsed payload, or — matching the `catch` fallback — the raw payload
string, which in this model is the same `Json.str` a successful parse of a
JSON string would give (in JS both are plain strings too). -/
abbrev SSEEvent := JStr × Json

/-- JSON decoding of one frame (api-client.ts lines 225-229 and 248-254):
`JSON.parse` the payload; on failure fall back to the raw string. -/
def decodeFrame (f : Frame) : SSEEvent :=
  (f.1, (jsonParse f.2).getD (Json.str f.2))

/-- The sequence of events `verifyClaimStream` yields for a byte stream. -/
def parsedEvents (chunks : List (List Nat)) : List SSEEvent :=
  (verifyClaimStream chunks).map decodeFrame

/-- The transport response the streaming call sees: HTTP status, the error
body text read by `response.text()`, and the optional readable body (the
chunked byte stream). -/
structure HttpResponse where
  status : Nat
  bodyText : JStr
  body : Option (List (List Nat))

/-- Entry checks and streaming of `verifyClaimStream` (api-client.ts lines
191-198 then 200-258): a non-ok status (`response.ok` is status 200-299)
throws with status and body text before any streaming; an ok response with
no body throws; otherwise the full event sequence is yielded. -/
def verifyClaimStreamCall (resp : HttpResponse) : Except JStr (List SSEEvent) :=
  if resp.status < 200 ∨ 300 ≤ resp.status then
    Except.error (S "WebCite API error (" ++ natToJStr resp.status ++ S "): " ++ resp.bodyText)
  else
    match resp.body with
    | none => Except.error (S "No response body received from streaming endpoint")
    | some chunks => Except.ok (parsedEvents chunks)

/-! ### Event aggregator (`collectStreamEvents`, src/index.ts lines 393-446)

JS truthiness and `typeof` drive every branch, so they are modelled first.
The result distinguishes the three ways the source's `finalResult` variable
ends up: assigned some event's `data` (terminal event or full snapshot),
assigned the synthesized object literal, or still `null`. -/

/-- JS truthiness of a JSON value (`NaN` and `undefined` cannot be produced
by `JSON.parse`). -/
def jsTruthy : Json → Bool
  | Json.null => false
  | Json.bool b => b
  | Json.num q => ¬ (q = 0)
  | Json.str s => ¬ (s = [])
  | Json.arr _ => true
  | Json.obj _ => true

/-- JS `data && typeof data === 'object'`: a truthy value of object type,
i.e. an object or an array (arrays are objects in JS; `null` is excluded by
the truthiness conjunct). -/
def isStructured : Json → Bool
  | Json.arr _ => true
  | Json.obj _ => true
  | _ => false

/-- JS property access `data[key]`: `some` the value (last occurrence wins,
as for duplicate keys in `JSON.parse`), `none` for `undefined`. -/
def getField (j : Json) (key : JStr) : Option Json :=
  match j with
  | Json.obj fields => fields.foldl (fun acc f => if f.1 = key then some f.2 else acc) none
  | _ => none

/-- JS `data[key]` truthiness test (`undefined` is falsy). -/
def fieldTruthy (j : Json) (key : JStr) : Bool :=
  match getField j key with
  | some v => jsTruthy v
  | none => false

/-- The terminal-event guard (index.ts lines 403-404): kind `complete`,
`result` or `done` and structured data. -/
def isTerminalEvent (e : SSEEvent) : Bool :=
  (e.1 = S "complete" ∨ e.1 = S "result" ∨ e.1 = S "done") ∧ isStructured e.2

/-- The `for await` scan (index.ts lines 399-408) as it affects
`finalResult`: the last qualifying terminal event's data. -/
def scanFinal (events : List SSEEvent) : Option Json :=
  events.foldl (fun acc e => if isTerminalEvent e then some e.2 else acc) none

/-- Accumulator of the fallback loop (index.ts lines 412-433). -/
structure AccState where
  claimGroups : List Json
  creditUsage : Option Json
  threadId : Json
  finalResult : Option Json

/-- Initial accumulator: empty list, `undefined`, `''`, `null`. -/
def accInit : AccState := ⟨[], none, Json.str [], none⟩

/-- One iteration of the fallback loop (index.ts lines 416-433): skip
non-objects, append `claim_group` data, keep the last `credit_usage` data,
keep the last truthy `thread_id` field, and treat any data with a truthy
`claim_groups` field as a full snapshot replacing `finalResult`. -/
def stepAcc (s : AccState) (e : SSEEvent) : AccState :=
  if ¬ isStructured e.2 then s
  else
    let s1 := if e.1 = S "claim_group" then { s with claimGroups := s.claimGroups ++ [e.2] } else s
    let s2 := if e.1 = S "credit_usage" then { s1 with creditUsage := some e.2 } else s1
    let s3 := match getField e.2 (S "thread_id") with
      | some v => if jsTruthy v then { s2 with threadId := v } else s2
      | none => s2
    if fieldTruthy e.2 (S "claim_groups") then { s3 with finalResult := some e.2 } else s3

/-- Accumulator state after the whole fallback loop. -/
def accumulate (events : List SSEEvent) : AccState := events.foldl stepAcc accInit

/-- JS number accumulator of `claimGroups.reduce((sum, g) => sum +
g.citation_count, 0)`: a number, or the non-number outcome (NaN, or a string
under JS string coercion) that arises once some group's `citation_count` is
missing or not null, boolean or number — no claim depends on which. -/
inductive JsSum where
  | val (q : ℚ) : JsSum
  | nonNum : JsSum
deriving Repr, DecidableEq

/-- One `reduce` step `sum + g.citation_count` under JS `+` coercion. -/
def addCitationCount (sum : JsSum) (g : Json) : JsSum :=
  match sum with
  | JsSum.nonNum => JsSum.nonNum
  | JsSum.val s =>
    match getField g (S "citation_count") with
    | some (Json.num n) => JsSum.val (s + n)
    | some Json.null => JsSum.val s
    | some (Json.bool b) => JsSum.val (s + if b then 1 else 0)
    | _ => JsSum.nonNum

/-- The `totalResults` of the synthesized result (index.ts line 438). -/
def totalOf (groups : List Json) : JsSum := groups.foldl addCitationCount (JsSum.val 0)

/-- Outcome of `collectStreamEvents`, mirroring how `finalResult` was
produced: some event's `data` object, the synthesized object literal of
index.ts lines 436-441 (with its four fields), or `null`. -/
inductive StreamResult where
  | found (data : Json) : StreamResult
  | synth (claimGroups : List Json) (totalResults : JsSum)
      (threadId : Json) (creditUsage : Option Json) : StreamResult
  | noResult : StreamResult

/-- The `result` component of `collectStreamEvents` (index.ts lines 393-446);
the `events` component is the input sequence unchanged. -/
def collectStreamEvents (events : List SSEEvent) : StreamResult :=
  match scanFinal events with
  | some d => StreamResult.found d
  | none =>
    let s := accumulate events
    match s.finalResult with
    | some d => StreamResult.found d
    | none =>
      if s.claimGroups.length > 0 then
        StreamResult.synth s.claimGroups (totalOf s.claimGroups) s.threadId s.creditUsage
      else StreamResult.noResult

/-! ### Selector functions used to state the aggregator claims

These restate, independently of the fold, which events each part of the
accumulated state comes from: the `claim_group` events in arrival order, the
last `credit_usage` event, the last truthy `thread_id` field, the last full
snapshot.  The theorems below prove the fold equal to these selectors. -/

/-- Guard of the `claim_group` accumulation branch. -/
def isClaimGroupEvent (e : SSEEvent) : Bool :=
  decide (e.1 = S "claim_group") && isStructured e.2

/-- Guard of the `credit_usage` branch. -/
def isCreditEvent (e : SSEEvent) : Bool :=
  decide (e.1 = S "credit_usage") && isStructured e.2

/-- Guard of the `thread_id` branch: structured data with a truthy
`thread_id` field. -/
def isThreadEvent (e : SSEEvent) : Bool :=
  isStructured e.2 && fieldTruthy e.2 (S "thread_id")

/-- Guard of the snapshot branch: structured data with a truthy
`claim_groups` field. -/
def isSnapshotEvent (e : SSEEvent) : Bool :=
  isStructured e.2 && fieldTruthy e.2 (S "claim_groups")

/-- The `claim_group` payloads in arrival order. -/
def specClaimGroups (events : List SSEEvent) : List Json :=
  (events.filter isClaimGroupEvent).map Prod.snd

/-- The data of the last `credit_usage` event, if any. -/
def specLastCredit (events : List SSEEvent) : Option Json :=
  (events.reverse.find? isCreditEvent).map Prod.snd

/-- The last truthy `thread_id` field value, if any. -/
def specLastThread (events : List SSEEvent) : Option Json :=
  (events.reverse.find? isThreadEvent).bind (fun e => getField e.2 (S "thread_id"))

/-- The `thread_id` of a synthesized result: last observed, `''` if none. -/
def specThreadId (events : List SSEEvent) : Json :=
  (specLastThread events).getD (Json.str [])

/-- The data of the last full-snapshot event, if any. -/
def specLastSnapshot (events : List SSEEvent) : Option Json :=
  (events.reverse.find? isSnapshotEvent).map Prod.snd

/-- Whether a group's `citation_count` field is a JSON number. -/
def hasNumCC (g : Json) : Bool :=
  match getField g (S "citation_count") with
  | some (Json.num _) => true
  | _ => false

/-- The sum of the groups' numeric `citation_count` fields. -/
def specTotal (groups : List Json) : ℚ :=
  (groups.map (fun g =>
    match getField g (S "citation_count") with
    | some (Json.num n) => n
    | _ => 0)).sum

/-! ### Helper lemmas: line prefixes -/

theorem jsStartsWith_data_event (p : JStr) :
    jsStartsWith (S "data: " ++ p) (S "event: ") = false := rfl

theorem jsStartsWith_data_data (p : JStr) :
    jsStartsWith (S "data: " ++ p) (S "data: ") = true := by
  simp [jsStartsWith, S, List.isPrefixOf]

theorem jsStartsWith_event_event (k : JStr) :
    jsStartsWith (S "event: " ++ k) (S "event: ") = true := by
  simp [jsStartsWith, S, List.isPrefixOf]

theorem jsStartsWith_event_data (k : JStr) :
    jsStartsWith (S "event: " ++ k) (S "data: ") = false := rfl

theorem drop6_data (p : JStr) : (S "data: " ++ p).drop 6 = p := rfl

theorem drop7_event (k : JStr) : (S "event: " ++ k).drop 7 = k := rfl

theorem data_append_ne_nil (p : JStr) : S "data: " ++ p ≠ [] := by simp [S]

theorem event_append_ne_nil (k : JStr) : S "event: " ++ k ≠ [] := by simp [S]

/-! ### Helper lemmas: `splitOnNl` -/

theorem splitOnNl_ne_nil (s : JStr) : splitOnNl s ≠ [] := by
  induction s with
  | nil => simp [splitOnNl]
  | cons c rest ih =>
    rcases h : splitOnNl rest with _ | ⟨l, ls⟩
    · exact absurd h ih
    · simp only [splitOnNl, h]
      split <;> simp

theorem mem_splitOnNl_no_nl : ∀ (s : JStr), ∀ part ∈ splitOnNl s, '\n' ∉ part := by
  intro s
  induction s with
  | nil => intro part hp; simp [splitOnNl] at hp; simp [hp]
  | cons c rest ih =>
    intro part hp
    rcases h : splitOnNl rest with _ | ⟨l, ls⟩
    · exact absurd h (splitOnNl_ne_nil rest)
    · simp only [splitOnNl, h] at hp
      by_cases hc : c = '\n'
      · rw [if_pos hc] at hp
        rcases List.mem_cons.mp hp with h1 | h1
        · simp [h1]
        · exact ih part (h ▸ h1)
      · rw [if_neg hc] at hp
        rcases List.mem_cons.mp hp with h1 | h1
        · subst h1
          intro hmem
          rcases List.mem_cons.mp hmem with h2 | h2
          · exact hc h2.symm
          · exact ih l (h ▸ List.mem_cons_self l ls) h2
        · exact ih part (h ▸ List.mem_cons.mpr (Or.inr h1))

theorem splitOnNl_noNl (s : JStr) (h : '\n' ∉ s) : splitOnNl s = [s] := by
  induction s with
  | nil => rfl
  | cons c rest ih =>
    have hc : ¬ c = '\n' := fun hh => h (hh ▸ List.mem_cons_self c rest)
    have hr : '\n' ∉ rest := fun hh => h (List.mem_cons.mpr (Or.inr hh))
    simp only [splitOnNl, ih hr]
    rw [if_neg hc]

theorem splitOnNl_append (a b : JStr) (ha : '\n' ∉ a) :
    splitOnNl (a ++ b) = (a ++ (splitOnNl b).headI) :: (splitOnNl b).tail := by
  induction a with
  | nil =>
    rcases h : splitOnNl b with _ | ⟨l, ls⟩
    · exact absurd h (splitOnNl_ne_nil b)
    · simp [h]
  | cons c a2 ih =>
    have hc : ¬ c = '\n' := fun hh => ha (hh ▸ List.mem_cons_self c a2)
    have ha2 : '\n' ∉ a2 := fun hh => ha (List.mem_cons.mpr (Or.inr hh))
    rw [List.cons_append]
    simp only [splitOnNl, ih ha2]
    rw [if_neg hc, List.cons_append]

/-! ### Helper lemmas: decoder additivity and read-loop composition -/

theorem decodeFold_acc : ∀ (bs : List Nat) (t : JStr) (st : TextDecoderState),
    bs.foldl (fun acc b =>
      let s := decodeByte acc.2 b
      (acc.1 ++ s.1, s.2)) (t, st)
      = (t ++ (utf8DecodeChunk st bs).1, (utf8DecodeChunk st bs).2) := by
  intro bs
  induction bs with
  | nil => intro t st; simp [utf8DecodeChunk]
  | cons b bs ih =>
    intro t st
    rw [List.foldl_cons]
    simp only
    rw [ih]
    have h2 : utf8DecodeChunk st (b :: bs)
        = ((decodeByte st b).1 ++ (utf8DecodeChunk (decodeByte st b).2 bs).1,
           (utf8DecodeChunk (decodeByte st b).2 bs).2) := by
      show List.foldl _ _ (b :: bs) = _
      rw [List.foldl_cons]
      simp only
      rw [ih]
      simp
    rw [h2]
    simp

theorem utf8DecodeChunk_append (st : TextDecoderState) (b1 b2 : List Nat) :
    utf8DecodeChunk st (b1 ++ b2)
      = ((utf8DecodeChunk st b1).1 ++ (utf8DecodeChunk (utf8DecodeChunk st b1).2 b2).1,
         (utf8DecodeChunk (utf8DecodeChunk st b1).2 b2).2) := by
  show List.foldl _ _ (b1 ++ b2) = _
  rw [List.foldl_append]
  have h1 : List.foldl (fun (acc : JStr × TextDecoderState) b =>
      let s := decodeByte acc.2 b
      (acc.1 ++ s.1, s.2)) ([], st) b1 = utf8DecodeChunk st b1 := rfl
  rw [h1]
  have h2 := decodeFold_acc b2 (utf8DecodeChunk st b1).1 (utf8DecodeChunk st b1).2
  rw [← h2]

theorem runChunks_append (st : ParseState) (xs ys : List (List Nat)) :
    runChunks st (xs ++ ys)
      = ((runChunks (runChunks st xs).1 ys).1,
         (runChunks st xs).2 ++ (runChunks (runChunks st xs).1 ys).2) := by
  induction xs generalizing st with
  | nil => simp [runChunks]
  | cons c cs ih =>
    simp only [List.cons_append, runChunks, List.append_eq]
    rw [ih]
    simp [List.append_assoc]

theorem processChunk_buffer_no_nl (st : ParseState) (c : List Nat) :
    '\n' ∉ (processChunk st c).1.buffer := by
  simp only [processChunk]
  rcases h : (splitOnNl (st.buffer ++ (utf8DecodeChunk st.dec c).1)).getLast? with _ | l
  · simp [h]
  · simp only [h, Option.getD_some]
    have hmo : l ∈ (splitOnNl (st.buffer ++ (utf8DecodeChunk st.dec c).1)).getLast? := by
      rw [h]; rfl
    rcases List.mem_getLast?_eq_getLast hmo with ⟨hne, hx⟩
    have hm : l ∈ splitOnNl (st.buffer ++ (utf8DecodeChunk st.dec c).1) := by
      rw [hx]; exact List.getLast_mem hne
    exact mem_splitOnNl_no_nl _ l hm

theorem runChunks_buffer_no_nl (cs : List (List Nat)) :
    ∀ (st : ParseState), '\n' ∉ st.buffer → '\n' ∉ (runChunks st cs).1.buffer := by
  induction cs with
  | nil => intro st h; exact h
  | cons c cs ih =>
    intro st h
    simp only [runChunks]
    exact ih _ (processChunk_buffer_no_nl st c)

theorem processChunk_noNlText (st : ParseState) (c : List Nat)
    (hb : '\n' ∉ st.buffer) (ht : '\n' ∉ (utf8DecodeChunk st.dec c).1) :
    processChunk st c
      = (⟨(utf8DecodeChunk st.dec c).2, st.buffer ++ (utf8DecodeChunk st.dec c).1⟩, []) := by
  have hno : '\n' ∉ st.buffer ++ (utf8DecodeChunk st.dec c).1 := by
    intro hmem
    rcases List.mem_append.mp hmem with h1 | h1
    · exact hb h1
    · exact ht h1
  simp only [processChunk, splitOnNl_noNl _ hno]
  simp [runLines]

theorem mergeChunks (st : ParseState) (c1 c2 : List Nat) (cs : List (List Nat))
    (hb : '\n' ∉ st.buffer) (ht : '\n' ∉ (utf8DecodeChunk st.dec c1).1) :
    runChunks st (c1 :: c2 :: cs) = runChunks st ((c1 ++ c2) :: cs) := by
  have hadd := utf8DecodeChunk_append st.dec c1 c2
  simp only [runChunks, processChunk_noNlText st c1 hb ht]
  simp only [processChunk, hadd]
  simp [List.append_assoc]


theorem jsStartsWith_nil_event : jsStartsWith [] (S "event: ") = false := rfl

theorem jsStartsWith_nil_data : jsStartsWith [] (S "data: ") = false := rfl

theorem jsTrim_cons_ne (c : Char) (rest : JStr) (hc : jsIsWhitespace c = false) :
    jsTrim (c :: rest) ≠ [] := by
  simp only [jsTrim]
  rw [List.dropWhile_cons, hc]
  simp only [Bool.false_eq_true, if_false]
  intro h
  have h2 := List.reverse_eq_nil_iff.mp h
  have h3 := List.dropWhile_eq_nil_iff.mp h2
  have h4 : jsIsWhitespace c = true := h3 c (by simp)
  rw [hc] at h4
  exact Bool.false_ne_true h4

theorem flushBuffer_dataLine (p : JStr) (hp : p ≠ []) (hnl : '\n' ∉ p) :
    flushBuffer (S "data: " ++ p) = [(S "message", p)] := by
  have htrim : jsTrim (S "data: " ++ p) ≠ [] := by
    have hsplit : S "data: " ++ p = 'd' :: (S "ata: " ++ p) := rfl
    rw [hsplit]
    exact jsTrim_cons_ne _ _ (by decide)
  have hnl2 : '\n' ∉ S "data: " ++ p := by
    intro h
    rcases List.mem_append.mp h with h1 | h1
    · exact absurd h1 (by decide)
    · exact hnl h1
  simp only [flushBuffer, if_pos htrim, splitOnNl_noNl _ hnl2, List.foldl_cons, List.foldl_nil,
    jsStartsWith_data_event, jsStartsWith_data_data, drop6_data]
  simp [hp]

/-- Claim C3 (amended): when the stream ends with an unterminated `data:` line
— i.e. the final carry-over buffer is `data: ` followed by a non-empty payload
— the end-of-stream flusher still yields that final frame, but its event kind
is always `message`: the carry buffer holds only the last partial line, so an
earlier `event:` line's kind is not preserved (and a newline-terminated final
`data:` line, shown in the counterexample, is dropped entirely). -/
theorem C3_eof_flush (chunks : List (List Nat)) (p : JStr)
    (hbuf : (runChunks initParseState chunks).1.buffer = S "data: " ++ p) (hp : p ≠ []) :
    verifyClaimStream chunks = (runChunks initParseState chunks).2 ++ [(S "message", p)] := by
  have hb : '\n' ∉ (runChunks initParseState chunks).1.buffer :=
    runChunks_buffer_no_nl chunks initParseState (by simp [initParseState])
  rw [hbuf] at hb
  have hnl : '\n' ∉ p := fun h => hb (List.mem_append.mpr (Or.inr h))
  simp only [verifyClaimStream]
  rw [hbuf, flushBuffer_dataLine p hp hnl]

/-- Claim C3 witness: the amended theorem applied to the concrete stream
`event: foo\ndata: x` (no trailing newline). -/
theorem C3_witness :
    verifyClaimStream [asciiBytes "event: foo\ndata: x"]
      = (runChunks initParseState [asciiBytes "event: foo\ndata: x"]).2 ++ [(S "message", S "x")] :=
  C3_eof_flush _ (S "x") (by decide) (by decide)

/-- Claim C3 counterexample: a stream ending right after a `data:` line does
not keep the event kind `foo` a blank-line-terminated stream would give
(the frame is emitted with kind `message`), and a newline-terminated final
`data:` line without its blank line yields no frame at all — contradicting
the claim that the frame is identical to the blank-line-terminated one. -/
theorem C3_counterexample :
    verifyClaimStream [asciiBytes "event: foo\ndata: x"] = [(S "message", S "x")]
      ∧ verifyClaimStream [asciiBytes "event: foo\ndata: x\n\n"] = [(S "foo", S "x")]
      ∧ verifyClaimStream [asciiBytes "event: foo\ndata: x\n"] = [] := by
  refine ⟨?_, ?_, ?_⟩ <;> decide

theorem stepLine_some_payload (st : JStr × JStr) (line : JStr) (f : Frame)
    (h : (stepLine st line).2 = some f) : f.2 ≠ [] := by
  unfold stepLine at h
  split_ifs at h with h1 h2 h3
  all_goals
    first
      | (simp at h; done)
      | (simp only [Option.some.injEq] at h; subst h; exact h3.2)

theorem runLines_payload : ∀ (lines : List JStr) (st : JStr × JStr) (f : Frame),
    f ∈ (runLines st lines).2 → f.2 ≠ [] := by
  intro lines
  induction lines with
  | nil => intro st f h; simp [runLines] at h
  | cons line rest ih =>
    intro st f h
    simp only [runLines] at h
    rcases List.mem_append.mp h with h1 | h1
    · rcases ho : (stepLine st line).2 with _ | g
      · rw [ho] at h1; simp at h1
      · rw [ho] at h1
        simp only [Option.toList_some, List.mem_singleton] at h1
        subst h1
        exact stepLine_some_payload st line f ho
    · exact ih _ f h1

theorem processChunk_payload (st : ParseState) (c : List Nat) (f : Frame)
    (h : f ∈ (processChunk st c).2) : f.2 ≠ [] := by
  simp only [processChunk] at h
  exact runLines_payload _ _ f h

theorem runChunks_payload : ∀ (cs : List (List Nat)) (st : ParseState) (f : Frame),
    f ∈ (runChunks st cs).2 → f.2 ≠ [] := by
  intro cs
  induction cs with
  | nil => intro st f h; simp [runChunks] at h
  | cons c cs ih =>
    intro st f h
    simp only [runChunks] at h
    rcases List.mem_append.mp h with h1 | h1
    · exact processChunk_payload st c f h1
    · exact ih _ f h1

theorem flushBuffer_payload (buffer : JStr) (f : Frame) (h : f ∈ flushBuffer buffer) :
    f.2 ≠ [] := by
  simp only [flushBuffer] at h
  split_ifs at h with h1 h2
  · simp only [List.mem_singleton] at h
    subst h
    exact h2
  · simp at h
  · simp at h

/-- Claim C9: a frame with an empty payload is never emitted.  Every frame
`verifyClaimStream` yields has a non-empty raw payload, and a blank line seen
while the current payload is empty is a keep-alive: it emits nothing and
leaves the line-loop state unchanged. -/
theorem C9_no_empty_payload :
    (∀ (chunks : List (List Nat)) (f : Frame), f ∈ verifyClaimStream chunks → f.2 ≠ [])
      ∧ (∀ ev : JStr, stepLine (ev, []) [] = ((ev, []), none)) := by
  constructor
  · intro chunks f h
    simp only [verifyClaimStream] at h
    rcases List.mem_append.mp h with h1 | h1
    · exact runChunks_payload chunks initParseState f h1
    · exact flushBuffer_payload _ f h1
  · intro ev
    rfl

/-- Claim C9 witness: the theorem applied to the concrete stream
`data: x\n\n` and its emitted frame. -/
theorem C9_witness : ((S "message", S "x") : Frame).2 ≠ [] :=
  C9_no_empty_payload.1 [asciiBytes "data: x\n\n"] (S "message", S "x") (by decide)

/-- Claim C10: any complete non-empty line that does not start with the
literal `event: ` or `data: ` prefixes (trailing space included) is silently
ignored by the line loop: no frame is yielded and the in-progress
`(currentEvent, currentData)` pair is unchanged. -/
theorem C10_unknown_lines_ignored (st : JStr × JStr) (line : JStr)
    (h1 : jsStartsWith line (S "event: ") = false)
    (h2 : jsStartsWith line (S "data: ") = false)
    (h3 : line ≠ []) :
    stepLine st line = (st, none) := by
  unfold stepLine
  simp [h1, h2, h3]

/-- Claim C10 witness: the theorem applied to the SSE comment line
`: keep-alive` in the initial line-loop state. -/
theorem C10_witness :
    stepLine (S "message", []) (S ": keep-alive") = ((S "message", []), none) :=
  C10_unknown_lines_ignored (S "message", []) (S ": keep-alive") (by decide) (by decide) (by decide)

/-- Claim C8: within one frame the order of the `event:` and `data:` lines
before the terminating blank line does not matter — the last-seen kind and
payload are associated with the finalized frame — and a later `data:` line
overwrites an earlier one. -/
theorem C8_field_order_irrelevant :
    (∀ (st : JStr × JStr) (k p : JStr),
        runLines st [S "data: " ++ p, S "event: " ++ k, []]
          = runLines st [S "event: " ++ k, S "data: " ++ p, []])
      ∧ (∀ (st : JStr × JStr) (p1 p2 : JStr),
        runLines st [S "data: " ++ p1, S "data: " ++ p2, []]
          = runLines st [S "data: " ++ p2, []]) := by
  constructor
  · intro st k p
    simp only [runLines, stepLine, jsStartsWith_data_event, jsStartsWith_data_data,
      jsStartsWith_event_event, jsStartsWith_event_data, jsStartsWith_nil_event,
      jsStartsWith_nil_data, drop6_data, drop7_event]
    by_cases hp : p = [] <;> simp [hp]
  · intro st p1 p2
    simp only [runLines, stepLine, jsStartsWith_data_event, jsStartsWith_data_data,
      jsStartsWith_nil_event, jsStartsWith_nil_data, drop6_data]
    by_cases hp : p2 = [] <;> simp [hp]


/-- Claim C1 (amended): chunk-boundary invariance holds for a split of a
chunk into two pieces whose first piece decodes to newline-free text — in
particular for splits mid-line before any line of the pending frame is
completed, and for splits inside a multi-byte character.  It fails in
general: because `(currentEvent, currentData)` are reinitialised on every
read-loop iteration, a boundary between two completed lines of one frame
changes or drops the frame (see the counterexample). -/
theorem C1_chunk_invariance (pre : List (List Nat)) (c1 c2 : List Nat) (post : List (List Nat))
    (ht : '\n' ∉ (utf8DecodeChunk (runChunks initParseState pre).1.dec c1).1) :
    verifyClaimStream (pre ++ c1 :: c2 :: post)
      = verifyClaimStream (pre ++ (c1 ++ c2) :: post) := by
  have hb : '\n' ∉ (runChunks initParseState pre).1.buffer :=
    runChunks_buffer_no_nl pre initParseState (by simp [initParseState])
  simp only [verifyClaimStream]
  rw [runChunks_append, runChunks_append]
  rw [mergeChunks _ c1 c2 post hb ht]

/-- Claim C1 counterexample: delivering `event: foo\n` and `data: x\n\n` as
two chunks yields the frame with kind `message`, while the same bytes in one
chunk yield kind `foo` — parsing is not invariant under a mid-frame chunk
boundary between the two complete lines. -/
theorem C1_counterexample :
    verifyClaimStream [asciiBytes "event: foo\n", asciiBytes "data: x\n\n"]
        = [(S "message", S "x")]
      ∧ verifyClaimStream [asciiBytes "event: foo\ndata: x\n\n"] = [(S "foo", S "x")] := by
  constructor <;> decide

/-- Claim C1 witness: the amended theorem applied to a concrete split of
`data: x\n\n` inside its first line. -/
theorem C1_witness :
    verifyClaimStream [asciiBytes "da", asciiBytes "ta: x\n\n"]
      = verifyClaimStream [asciiBytes "da" ++ asciiBytes "ta: x\n\n"] :=
  C1_chunk_invariance [] (asciiBytes "da") (asciiBytes "ta: x\n\n") [] (by decide)

/-- Claim C4: a non-2xx response makes the streaming call fail before any
streaming with a single error carrying both the status code and the response
body text (an `Except.error` carries no events), and a 2xx response without
a readable body fails immediately with a descriptive error. -/
theorem C4_transport_errors (resp : HttpResponse) :
    (¬ (200 ≤ resp.status ∧ resp.status < 300) →
      verifyClaimStreamCall resp
        = Except.error (S "WebCite API error (" ++ natToJStr resp.status ++ S "): " ++ resp.bodyText))
    ∧ (200 ≤ resp.status → resp.status < 300 → resp.body = none →
      verifyClaimStreamCall resp
        = Except.error (S "No response body received from streaming endpoint")) := by
  constructor
  · intro h
    have hcond : resp.status < 200 ∨ 300 ≤ resp.status := by omega
    simp only [verifyClaimStreamCall, if_pos hcond]
  · intro h1 h2 hbody
    have hcond : ¬ (resp.status < 200 ∨ 300 ≤ resp.status) := by omega
    simp only [verifyClaimStreamCall, if_neg hcond, hbody]

/-- Claim C4 witness: the theorem applied to a 429 response with body
`rate limited`, and to a body-less 200 response. -/
theorem C4_witness :
    verifyClaimStreamCall ⟨429, S "rate limited", some []⟩
        = Except.error (S "WebCite API error (429): rate limited")
      ∧ verifyClaimStreamCall ⟨200, S "", none⟩
        = Except.error (S "No response body received from streaming endpoint") :=
  ⟨(C4_transport_errors ⟨429, S "rate limited", some []⟩).1 (by decide),
   (C4_transport_errors ⟨200, S "", none⟩).2 (by decide) (by decide) rfl⟩

/-- Claim C6: a frame whose raw payload is not valid JSON is still yielded,
with `data` equal to the original payload string, and no event of the stream
is lost to the failed parse (the parsed event list has the same length as the
frame list, so JSON decode failure never aborts the stream). -/
theorem C6_malformed_json_tolerated (chunks : List (List Nat)) (f : Frame)
    (hmem : f ∈ verifyClaimStream chunks) (hbad : jsonParse f.2 = none) :
    (f.1, Json.str f.2) ∈ parsedEvents chunks
      ∧ (parsedEvents chunks).length = (verifyClaimStream chunks).length := by
  constructor
  · have : decodeFrame f = (f.1, Json.str f.2) := by
      simp [decodeFrame, hbad]
    exact this ▸ List.mem_map_of_mem decodeFrame hmem
  · simp [parsedEvents]

/-- Claim C6 witness: the theorem applied to a stream carrying the payload
`\x7binvalid json`, which `jsonParse` rejects. -/
theorem C6_witness :
    ((S "message", Json.str (S "\x7binvalid json"))
        ∈ parsedEvents [asciiBytes "data: \x7binvalid json\n\n"])
      ∧ (parsedEvents [asciiBytes "data: \x7binvalid json\n\n"]).length
        = (verifyClaimStream [asciiBytes "data: \x7binvalid json\n\n"]).length :=
  C6_malformed_json_tolerated [asciiBytes "data: \x7binvalid json\n\n"]
    (S "message", S "\x7binvalid json") (by decide) rfl

/-- Claim C7 (amended): decoding is invariant under chunk boundaries — a
multi-byte UTF-8 character whose encoding spans two chunks is decoded intact,
shown both as decoder-state additivity and on a concrete split of `é` — but a
dangling partial character at end of stream is silently discarded, because
the decoder is never flushed (see the counterexample). -/
theorem C7_split_char_decoding :
    (∀ (st : TextDecoderState) (b1 b2 : List Nat),
      utf8DecodeChunk st (b1 ++ b2)
        = ((utf8DecodeChunk st b1).1 ++ (utf8DecodeChunk (utf8DecodeChunk st b1).2 b2).1,
           (utf8DecodeChunk (utf8DecodeChunk st b1).2 b2).2))
    ∧ verifyClaimStream [asciiBytes "data: ", [0xC3, 0xA9], asciiBytes "\n\n"]
        = [(S "message", [Char.ofNat 0xE9])] := by
  refine ⟨utf8DecodeChunk_append, ?_⟩
  decide

/-- Claim C7 counterexample: a stream ending in the lone lead byte `0xC3`
yields the payload `x` unchanged — the pending partial character (the final
decoder state still awaits one continuation byte) is silently discarded, not
resolved as the claim states. -/
theorem C7_counterexample :
    verifyClaimStream [asciiBytes "data: x", [0xC3]] = [(S "message", S "x")]
      ∧ (runChunks initParseState [asciiBytes "data: x", [0xC3]]).1.dec.core.bytesNeeded = 1 := by
  constructor <;> decide


theorem scanFinal_eq (events : List SSEEvent) :
    scanFinal events = (events.reverse.find? isTerminalEvent).map Prod.snd := by
  induction events using List.reverseRecOn with
  | nil => rfl
  | append_singleton es e ih =>
    show List.foldl _ _ (es ++ [e]) = _
    rw [List.foldl_append, List.reverse_append]
    simp only [List.foldl_cons, List.foldl_nil, List.reverse_singleton, List.singleton_append]
    rcases h : isTerminalEvent e with _ | _
    · simp only [List.find?, h, Bool.false_eq_true, if_false]
      exact ih
    · simp [List.find?, h]

theorem specClaimGroups_append (es : List SSEEvent) (e : SSEEvent) :
    specClaimGroups (es ++ [e])
      = specClaimGroups es ++ (if isClaimGroupEvent e then [e.2] else []) := by
  simp only [specClaimGroups, List.filter_append, List.map_append]
  rcases h : isClaimGroupEvent e with _ | _ <;> simp [List.filter, h]

theorem specLastCredit_append (es : List SSEEvent) (e : SSEEvent) :
    specLastCredit (es ++ [e])
      = if isCreditEvent e then some e.2 else specLastCredit es := by
  simp only [specLastCredit, List.reverse_append, List.reverse_singleton, List.singleton_append]
  rcases h : isCreditEvent e with _ | _ <;> simp [List.find?, h]

theorem specLastThread_append (es : List SSEEvent) (e : SSEEvent) :
    specLastThread (es ++ [e])
      = if isThreadEvent e then getField e.2 (S "thread_id") else specLastThread es := by
  simp only [specLastThread, List.reverse_append, List.reverse_singleton, List.singleton_append]
  rcases h : isThreadEvent e with _ | _ <;> simp [List.find?, h]

theorem specLastSnapshot_append (es : List SSEEvent) (e : SSEEvent) :
    specLastSnapshot (es ++ [e])
      = if isSnapshotEvent e then some e.2 else specLastSnapshot es := by
  simp only [specLastSnapshot, List.reverse_append, List.reverse_singleton, List.singleton_append]
  rcases h : isSnapshotEvent e with _ | _ <;> simp [List.find?, h]


theorem stepAcc_cg (t : AccState) (e : SSEEvent) :
    (stepAcc t e).claimGroups
      = t.claimGroups ++ (if isClaimGroupEvent e then [e.2] else []) := by
  rcases hst : isStructured e.2 with _ | _
  · simp [stepAcc, hst, isClaimGroupEvent]
  · simp only [stepAcc, hst, not_true, if_false]
    rcases hgf : getField e.2 (S "thread_id") with _ | v <;>
      by_cases hcg : e.1 = S "claim_group" <;>
        simp [hgf, hcg, isClaimGroupEvent, hst] <;> split_ifs <;> simp

theorem stepAcc_cu (t : AccState) (e : SSEEvent) :
    (stepAcc t e).creditUsage = if isCreditEvent e then some e.2 else t.creditUsage := by
  rcases hst : isStructured e.2 with _ | _
  · simp [stepAcc, hst, isCreditEvent]
  · simp only [stepAcc, hst, not_true, if_false]
    rcases hgf : getField e.2 (S "thread_id") with _ | v <;>
      by_cases hcu : e.1 = S "credit_usage" <;>
        simp [hgf, hcu, isCreditEvent, hst] <;> split_ifs <;> simp

theorem stepAcc_th (t : AccState) (e : SSEEvent) :
    (stepAcc t e).threadId
      = if isThreadEvent e then (getField e.2 (S "thread_id")).getD t.threadId
        else t.threadId := by
  rcases hst : isStructured e.2 with _ | _
  · simp [stepAcc, hst, isThreadEvent]
  · simp only [stepAcc, hst, not_true, if_false]
    rcases hgf : getField e.2 (S "thread_id") with _ | v <;>
      simp [hgf, isThreadEvent, fieldTruthy, hst] <;> split_ifs <;> simp_all

theorem stepAcc_fr (t : AccState) (e : SSEEvent) :
    (stepAcc t e).finalResult = if isSnapshotEvent e then some e.2 else t.finalResult := by
  rcases hst : isStructured e.2 with _ | _
  · simp [stepAcc, hst, isSnapshotEvent]
  · simp only [stepAcc, hst, not_true, if_false]
    rcases hgf : getField e.2 (S "thread_id") with _ | v <;>
      simp [hgf, isSnapshotEvent, fieldTruthy, hst] <;> split_ifs <;> simp_all


theorem foldl_stepAcc_cg : ∀ (events : List SSEEvent) (s : AccState),
    (events.foldl stepAcc s).claimGroups = s.claimGroups ++ specClaimGroups events := by
  intro events
  induction events using List.reverseRecOn with
  | nil => intro s; simp [specClaimGroups]
  | append_singleton es e ih =>
    intro s
    rw [List.foldl_append, List.foldl_cons, List.foldl_nil, stepAcc_cg, ih,
      specClaimGroups_append, List.append_assoc]

theorem foldl_stepAcc_cu : ∀ (events : List SSEEvent) (s : AccState),
    (events.foldl stepAcc s).creditUsage = (specLastCredit events).or s.creditUsage := by
  intro events
  induction events using List.reverseRecOn with
  | nil => intro s; simp [specLastCredit, Option.or]
  | append_singleton es e ih =>
    intro s
    rw [List.foldl_append, List.foldl_cons, List.foldl_nil, stepAcc_cu, ih,
      specLastCredit_append]
    rcases h : isCreditEvent e with _ | _ <;> simp [Option.or]

theorem foldl_stepAcc_th : ∀ (events : List SSEEvent) (s : AccState),
    (events.foldl stepAcc s).threadId = (specLastThread events).getD s.threadId := by
  intro events
  induction events using List.reverseRecOn with
  | nil => intro s; simp [specLastThread]
  | append_singleton es e ih =>
    intro s
    rw [List.foldl_append, List.foldl_cons, List.foldl_nil, stepAcc_th, ih,
      specLastThread_append]
    rcases h : isThreadEvent e with _ | _
    · simp
    · simp only [if_true]
      have : ∃ v, getField e.2 (S "thread_id") = some v := by
        rcases hgf : getField e.2 (S "thread_id") with _ | v
        · exfalso
          simp [isThreadEvent, fieldTruthy, hgf] at h
        · exact ⟨v, rfl⟩
      rcases this with ⟨v, hv⟩
      simp [hv]

theorem foldl_stepAcc_fr : ∀ (events : List SSEEvent) (s : AccState),
    (events.foldl stepAcc s).finalResult = (specLastSnapshot events).or s.finalResult := by
  intro events
  induction events using List.reverseRecOn with
  | nil => intro s; simp [specLastSnapshot, Option.or]
  | append_singleton es e ih =>
    intro s
    rw [List.foldl_append, List.foldl_cons, List.foldl_nil, stepAcc_fr, ih,
      specLastSnapshot_append]
    rcases h : isSnapshotEvent e with _ | _ <;> simp [Option.or]


theorem totalOf_go : ∀ (groups : List Json) (q : ℚ),
    (∀ g ∈ groups, hasNumCC g = true) →
    groups.foldl addCitationCount (JsSum.val q) = JsSum.val (q + specTotal groups) := by
  intro groups
  induction groups with
  | nil => intro q h; simp [specTotal]
  | cons g gs ih =>
    intro q h
    have hg : hasNumCC g = true := h g (List.mem_cons_self g gs)
    rcases hgf : getField g (S "citation_count") with _ | v
    · simp [hasNumCC, hgf] at hg
    · cases v with
      | num n =>
        rw [List.foldl_cons]
        have hstep : addCitationCount (JsSum.val q) g = JsSum.val (q + n) := by
          simp [addCitationCount, hgf]
        rw [hstep, ih _ (fun x hx => h x (List.mem_cons.mpr (Or.inr hx)))]
        have hsum : specTotal (g :: gs) = n + specTotal gs := by
          simp [specTotal, hgf]
        rw [hsum]
        congr 1
        ring
      | null => simp [hasNumCC, hgf] at hg
      | bool b => simp [hasNumCC, hgf] at hg
      | str s2 => simp [hasNumCC, hgf] at hg
      | arr xs => simp [hasNumCC, hgf] at hg
      | obj fs => simp [hasNumCC, hgf] at hg

theorem totalOf_spec (groups : List Json) (h : ∀ g ∈ groups, hasNumCC g = true) :
    totalOf groups = JsSum.val (specTotal groups) := by
  rw [totalOf, totalOf_go groups 0 h, zero_add]

/-- Claim C2: if the event sequence contains a qualifying terminal event
(kind `complete`, `result` or `done` with truthy object-typed data), the
aggregator returns the data of the last such event, and nothing else — prior
`claim_group`, `credit_usage` or snapshot events have no effect. -/
theorem C2_terminal_event_wins (events : List SSEEvent) (e : SSEEvent)
    (h : events.reverse.find? isTerminalEvent = some e) :
    collectStreamEvents events = StreamResult.found e.2 := by
  have hscan : scanFinal events = some e.2 := by
    rw [scanFinal_eq, h]
    rfl
  simp only [collectStreamEvents, hscan]

/-- Claim C2 witness: the theorem applied to a sequence with a `claim_group`
event, a `credit_usage` event and a final `complete` event. -/
theorem C2_witness :
    collectStreamEvents
        [(S "claim_group",
          Json.obj [(S "claim_id", Json.str (S "a")), (S "citation_count", Json.num 2)]),
         (S "credit_usage", Json.obj [(S "credits_used", Json.num 4)]),
         (S "complete",
          Json.obj [(S "claim_groups", Json.arr []), (S "totalResults", Json.num 0),
                    (S "thread_id", Json.str (S "t1"))])]
      = StreamResult.found
          (Json.obj [(S "claim_groups", Json.arr []), (S "totalResults", Json.num 0),
                     (S "thread_id", Json.str (S "t1"))]) :=
  C2_terminal_event_wins _
    (S "complete",
     Json.obj [(S "claim_groups", Json.arr []), (S "totalResults", Json.num 0),
               (S "thread_id", Json.str (S "t1"))]) rfl

/-- Claim C5: with no qualifying terminal event and no snapshot event, but at
least one structured `claim_group` event, the aggregator synthesizes a result
whose claim groups are the accumulated payloads in arrival order, whose
`totalResults` is the sum of their `citation_count` fields (all numeric by
hypothesis), whose `thread_id` is the last observed truthy value (empty
string when none), and whose `credit_usage` is the last observed (absent when
none). -/
theorem C5_synthesized_result (events : List SSEEvent)
    (hterm : ∀ e ∈ events, isTerminalEvent e = false)
    (hsnap : ∀ e ∈ events, isSnapshotEvent e = false)
    (hcg : 0 < (specClaimGroups events).length)
    (hnum : ∀ g ∈ specClaimGroups events, hasNumCC g = true) :
    collectStreamEvents events
      = StreamResult.synth (specClaimGroups events)
          (JsSum.val (specTotal (specClaimGroups events)))
          (specThreadId events) (specLastCredit events) := by
  have hscan : scanFinal events = none := by
    rw [scanFinal_eq]
    have hfind : events.reverse.find? isTerminalEvent = none := by
      rw [List.find?_eq_none]
      intro e he
      simp [hterm e (List.mem_reverse.mp he)]
    rw [hfind]
    rfl
  have hfr : (accumulate events).finalResult = none := by
    rw [accumulate, foldl_stepAcc_fr]
    have hfind : events.reverse.find? isSnapshotEvent = none := by
      rw [List.find?_eq_none]
      intro e he
      simp [hsnap e (List.mem_reverse.mp he)]
    rw [specLastSnapshot, hfind]
    rfl
  have hcg' : (accumulate events).claimGroups = specClaimGroups events := by
    rw [accumulate, foldl_stepAcc_cg]
    rfl
  have hcu' : (accumulate events).creditUsage = specLastCredit events := by
    rw [accumulate, foldl_stepAcc_cu]
    cases specLastCredit events <;> rfl
  have hth' : (accumulate events).threadId = specThreadId events := by
    rw [accumulate, foldl_stepAcc_th]
    rfl
  simp only [collectStreamEvents, hscan, hfr, hcg', hcu', hth']
  rw [if_pos hcg, totalOf_spec _ hnum]

/-- Claim C5 witness: the theorem applied to a concrete sequence of two
`claim_group` events (counts 2 and 3) and one `credit_usage` event. -/
theorem C5_witness :
    collectStreamEvents
        [(S "claim_group",
          Json.obj [(S "claim_id", Json.str (S "a")), (S "citation_count", Json.num 2),
                    (S "thread_id", Json.str (S "t1"))]),
         (S "credit_usage", Json.obj [(S "credits_used", Json.num 4)]),
         (S "claim_group",
          Json.obj [(S "claim_id", Json.str (S "b")), (S "citation_count", Json.num 3)])]
      = StreamResult.synth
          (specClaimGroups
            [(S "claim_group",
              Json.obj [(S "claim_id", Json.str (S "a")), (S "citation_count", Json.num 2),
                        (S "thread_id", Json.str (S "t1"))]),
             (S "credit_usage", Json.obj [(S "credits_used", Json.num 4)]),
             (S "claim_group",
              Json.obj [(S "claim_id", Json.str (S "b")), (S "citation_count", Json.num 3)])])
          (JsSum.val (specTotal (specClaimGroups
            [(S "claim_group",
              Json.obj [(S "claim_id", Json.str (S "a")), (S "citation_count", Json.num 2),
                        (S "thread_id", Json.str (S "t1"))]),
             (S "credit_usage", Json.obj [(S "credits_used", Json.num 4)]),
             (S "claim_group",
              Json.obj [(S "claim_id", Json.str (S "b")), (S "citation_count", Json.num 3)])])))
          (specThreadId
            [(S "claim_group",
              Json.obj [(S "claim_id", Json.str (S "a")), (S "citation_count", Json.num 2),
                        (S "thread_id", Json.str (S "t1"))]),
             (S "credit_usage", Json.obj [(S "credits_used", Json.num 4)]),
             (S "claim_group",
              Json.obj [(S "claim_id", Json.str (S "b")), (S "citation_count", Json.num 3)])])
          (specLastCredit
            [(S "claim_group",
              Json.obj [(S "claim_id", Json.str (S "a")), (S "citation_count", Json.num 2),
                        (S "thread_id", Json.str (S "t1"))]),
             (S "credit_usage", Json.obj [(S "credits_used", Json.num 4)]),
             (S "claim_group",
              Json.obj [(S "claim_id", Json.str (S "b")), (S "citation_count", Json.num 3)])]) :=
  C5_synthesized_result _ (by decide) (by decide) (by decide) (by decide)

end WebCite
